import Mathlib

/-!
Verification of the prompt-engineer middleware core.

Shallow embedding of the repository sources:
  src/prompt-engineer.py   (PromptEnhancement, PromptEngineer)
  src/prompt-middleware.py (process_prompt, provide_feedback)
  src/models.py            (PromptRequest, PromptResponse)

Modelling conventions:
- Python strings are Lean `String`; `str.lower` is modelled by per-character
  lowering (`strLower`), and the `term in s` substring test by `strIncludes`.
- The LLM provider (`llm_provider.generate_response`) is an explicit parameter
  `adapter : String → Except String String`: `Except.ok t` is a successful
  response with text `t`, `Except.error e` is a raised exception whose
  `str(e)` is `e`.  Stateful methods return the updated `PromptEngineer`
  state explicitly, together with the list of prompts that were sent to the
  provider (the call trace) so that "the adapter is called exactly once on
  prompt x" is expressible.
- Python dicts keyed by strings are total functions `String → Option α`;
  a dict access `d[k]` that may raise `KeyError` is the `Option` lookup,
  and `enhance_prompt` therefore returns `Option` (`none` = an uncaught
  `KeyError`; for rule sets built by `load_enhancement_rules` the lookup in
  fact always succeeds, since the detector output is always a key).
- `time.time()` is an abstract instant passed in as a `Nat` parameter `now`.
- Python `int` is `Int` (unbounded).
- The `.format` call at line 135 has two models: `formatTemplate` covers the
  success path only (total substitution; the theorems stated over
  `enhance_prompt` condition on the provider call having run, which
  presupposes the substitution succeeded), while `pyFormat` also models the
  exceptions `str.format` raises on malformed templates, and
  `enhance_prompt_checked` threads that error path — which sits OUTSIDE the
  `try` — to the caller.
-/

namespace PromptMiddleware

set_option maxRecDepth 40000

/-- One entry of the `enhancement_rules` dict: a system prompt and a
meta-prompt template (see `PromptEngineer.load_enhancement_rules`). -/
structure EnhancementRule where
  system_prompt : String
  template : String
deriving Repr, DecidableEq

/-- Model of `PromptEnhancement` (prompt-engineer.py lines 16-23): record of one
prompt enhancement.  `effectiveness_rating` starts out `None`. -/
structure PromptEnhancement where
  original_prompt : String
  enhanced_prompt : String
  timestamp : Nat
  effectiveness_rating : Option Int
deriving Repr, DecidableEq

/-- The mutable state of a `PromptEngineer` instance: its rule dict and its
enhancement history (prompt-engineer.py lines 37-40). -/
structure PromptEngineer where
  enhancement_rules : String → Option EnhancementRule
  enhancement_history : List PromptEnhancement

/-- Per-character lowering: the model of Python `str.lower()`. -/
def strLower (s : String) : String := String.mk (s.data.map Char.toLower)

/-- Substring containment on character lists: `needle` occurs contiguously
in `hay`.  Model of the Python `needle in hay` test on strings. -/
def listHasSubstring (needle hay : List Char) : Bool :=
  match hay with
  | [] => needle.isEmpty
  | _ :: rest => needle.isPrefixOf hay || listHasSubstring needle rest

/-- Test `needle in hay` for Lean strings. -/
def strIncludes (needle hay : String) : Bool := listHasSubstring needle.data hay.data

/-- Keyword list for the `"coding"` category (prompt-engineer.py line 120). -/
def codingTerms : List String :=
  ["code", "function", "program", "script", "develop", "bug", "debug", "coding"]

/-- Keyword list for the `"creative"` category (prompt-engineer.py line 122). -/
def creativeTerms : List String :=
  ["write", "story", "creative", "design", "article", "blog"]

/-- Keyword list for the `"analytical"` category (prompt-engineer.py line 124). -/
def analyticalTerms : List String :=
  ["analyze", "analysis", "research", "evaluate", "compare", "explain", "reason"]

/-- Model of `PromptEngineer.detect_prompt_type` (prompt-engineer.py lines 116-127):
lower-case the prompt, then test the keyword lists in priority order
coding, creative, analytical; return `"default"` when none match. -/
def detect_prompt_type (prompt : String) : String :=
  let prompt_lower := strLower prompt
  if codingTerms.any (fun term => strIncludes term prompt_lower) then "coding"
  else if creativeTerms.any (fun term => strIncludes term prompt_lower) then "creative"
  else if analyticalTerms.any (fun term => strIncludes term prompt_lower) then "analytical"
  else "default"

/-- Built-in rule for `"coding"` (prompt-engineer.py lines 46-60). -/
def codingRule : EnhancementRule where
  system_prompt := "You are a professional software developer with expertise in clean code and best practices."
  template := "
                Consider this coding request: \"{prompt}\"

                Enhance this request by:
                1. Clarifying the programming language if not specified
                2. Adding requirements for error handling and edge cases
                3. Specifying if documentation is needed
                4. Asking for proper formatting and modular design
                5. Requesting appropriate comments and variable naming

                Return ONLY the enhanced prompt without explanations or preamble.
                "

/-- Built-in rule for `"creative"` (prompt-engineer.py lines 61-75). -/
def creativeRule : EnhancementRule where
  system_prompt := "You are a creative writing and content creation expert."
  template := "
                Consider this creative request: \"{prompt}\"

                Enhance this request by:
                1. Clarifying the style, tone, and format
                2. Specifying target audience if relevant
                3. Adding structure guidance
                4. Including any relevant constraints
                5. Specifying length or detail level

                Return ONLY the enhanced prompt without explanations or preamble.
                "

/-- Built-in rule for `"analytical"` (prompt-engineer.py lines 76-90). -/
def analyticalRule : EnhancementRule where
  system_prompt := "You are an analytical expert specializing in structured thinking and clear analysis."
  template := "
                Consider this analytical request: \"{prompt}\"

                Enhance this request by:
                1. Adding structure for step-by-step reasoning
                2. Specifying the depth of analysis needed
                3. Clarifying what metrics or frameworks to use
                4. Adding requirements for evidence or citations
                5. Requesting specific output format if helpful

                Return ONLY the enhanced prompt without explanations or preamble.
                "

/-- Built-in rule for `"default"` (prompt-engineer.py lines 91-105). -/
def defaultRule : EnhancementRule where
  system_prompt := "You are an expert prompt engineer who improves user prompts for better results."
  template := "
                Consider this prompt: \"{prompt}\"

                Enhance this prompt to be more effective by:
                1. Adding relevant context or specificity
                2. Clarifying any ambiguous aspects
                3. Structuring multi-part requests logically
                4. Adding appropriate constraints or guidance
                5. Preserving the original intent while improving clarity

                Return ONLY the enhanced prompt without explanations or preamble.
                "

/-- The built-in rule dict as assigned at prompt-engineer.py lines 45-106. -/
def builtinRules : String → Option EnhancementRule := fun category =>
  if category = "coding" then some codingRule
  else if category = "creative" then some creativeRule
  else if category = "analytical" then some analyticalRule
  else if category = "default" then some defaultRule
  else none

/-- One key-wise overwrite step of `dict.update` (prompt-engineer.py
line 112). -/
def updateRules (rules : String → Option EnhancementRule)
    (kv : String × EnhancementRule) : String → Option EnhancementRule :=
  fun category => if category = kv.1 then some kv.2 else rules category

/-- Model of `PromptEngineer.load_enhancement_rules` (prompt-engineer.py lines 42-114):
start from the built-in rules, then `dict.update` with the custom rules read
from `enhancement_rules.json`.  The custom rules are modelled as an
association list applied as key-wise overwrites (later entries win, as in
`dict.update`); a missing or malformed file — which the code tolerates and
keeps the built-ins — corresponds to the empty overlay `[]`. -/
def load_enhancement_rules (custom_rules : List (String × EnhancementRule)) :
    String → Option EnhancementRule :=
  custom_rules.foldl updateRules builtinRules

/-- A fresh `PromptEngineer` as built by `__init__` (prompt-engineer.py
lines 37-40): empty history, rules from `load_enhancement_rules`. -/
def mkPromptEngineer (custom_rules : List (String × EnhancementRule)) : PromptEngineer where
  enhancement_rules := load_enhancement_rules custom_rules
  enhancement_history := []

/-- Replace every (left-most, non-overlapping) occurrence of `pat` in `s`
by `rep`, on character lists.  `fuel` bounds the recursion; each step
consumes at least one character of `s`, so `fuel = s.length` suffices
(the fuel-exhausted branch is unreachable then). -/
def replaceCharsAux (fuel : Nat) (s pat rep : List Char) : List Char :=
  match fuel, s with
  | _, [] => []
  | 0, s => s
  | fuel + 1, c :: rest =>
    if 0 < pat.length ∧ pat.isPrefixOf (c :: rest) then
      rep ++ replaceCharsAux fuel (rest.drop (pat.length - 1)) pat rep
    else
      c :: replaceCharsAux fuel rest pat rep

/-- Replace every (left-most, non-overlapping) occurrence of `pat` in `s`
by `rep`. -/
def replaceChars (s pat rep : List Char) : List Char :=
  replaceCharsAux s.length s pat rep

/-- Success-path model of Python `template.format(prompt=prompt)`:
substitute the prompt text for the `{prompt}` placeholder.  This function
is total; the raising behavior of `str.format` on templates with stray
placeholders or unbalanced braces is modelled separately by `pyFormat`
below and threaded through `enhance_prompt_checked`. -/
def formatTemplate (template prompt : String) : String :=
  String.mk (replaceChars template.data "{prompt}".data prompt.data)

/-- The meta-prompt built at prompt-engineer.py line 135:
`enhancement_rule["template"].format(prompt=prompt)`. -/
def build_meta_prompt (rule : EnhancementRule) (prompt : String) : String :=
  formatTemplate rule.template prompt

/-- Model of `PromptEngineer.enhance_prompt` (prompt-engineer.py lines 129-155).

Returns `none` for an uncaught `KeyError` on the rule-dict access at
line 132 (shown unreachable for rule sets built by
`load_enhancement_rules`); otherwise `some (returned string, updated
engineer state, prompts sent to the provider)`.

The `try` block spans the provider call and the history append: on provider
success the enhanced prompt is returned and one `PromptEnhancement` record
is appended; on provider failure (`except Exception`) the error is logged
and the ORIGINAL prompt is returned — the append at line 145 is never
reached, so the history is unchanged. -/
def enhance_prompt (adapter : String → Except String String)
    (eng : PromptEngineer) (now : Nat) (prompt : String) :
    Option (String × PromptEngineer × List String) :=
  let prompt_type := detect_prompt_type prompt
  match eng.enhancement_rules prompt_type with
  | none => none
  | some enhancement_rule =>
    let meta_prompt := build_meta_prompt enhancement_rule prompt
    match adapter meta_prompt with
    | Except.ok enhanced_prompt =>
      some (enhanced_prompt,
            { eng with enhancement_history :=
                eng.enhancement_history ++
                  [{ original_prompt := prompt, enhanced_prompt := enhanced_prompt,
                     timestamp := now, effectiveness_rating := none }] },
            [meta_prompt])
    | Except.error _ =>
      some (prompt, eng, [meta_prompt])

/-- Model of `self.enhancement_history[index].effectiveness_rating = rating` at
prompt-engineer.py line 160: in-place rating update at position `i`. -/
def setRatingAt (history : List PromptEnhancement) (i : Nat) (rating : Int) :
    List PromptEnhancement :=
  match history, i with
  | [], _ => []
  | record :: rest, 0 => { record with effectiveness_rating := some rating } :: rest
  | record :: rest, n + 1 => record :: setRatingAt rest n rating

/-- Model of `PromptEngineer.record_effectiveness` (prompt-engineer.py lines 157-163):
if `0 <= index < len(history)` overwrite the rating of that record and log
success (`true`); otherwise log the invalid-index warning (`false`) and
leave the state untouched.  `rating` is accepted without range checks. -/
def record_effectiveness (eng : PromptEngineer) (index : Int) (rating : Int) :
    PromptEngineer × Bool :=
  if 0 ≤ index ∧ index < (eng.enhancement_history.length : Int) then
    ({ eng with enhancement_history :=
        setRatingAt eng.enhancement_history index.toNat rating }, true)
  else
    (eng, false)

/-- Model of `PromptRequest` (models.py lines 10-16), restricted to the fields the
core reads; provider selection and the options dict are transport plumbing
outside the modelled core. -/
structure PromptRequest where
  prompt : String
  bypass_enhancement : Bool
deriving Repr, DecidableEq

/-- Model of `PromptResponse` (models.py lines 23-26). -/
structure PromptResponse where
  response : String
  enhancement_index : Option Int
deriving Repr, DecidableEq

/-- Model of `process_prompt` (prompt-middleware.py lines 78-113), for one engineer
instance.  Result: `(outcome, updated engineer, prompts sent to provider)`
where `outcome` is `Except.ok` the `PromptResponse`, or `Except.error e`
for the `HTTPException` whose `detail` is the cause description `e`.

When `bypass_enhancement` is set, the enhancement step is skipped and
`enhancement_index = None`; otherwise `enhance_prompt` runs first and
`enhancement_index = len(enhancement_history) - 1` is read AFTER it
returns.  The final `generate_response` call is made in both cases; an
exception it raises is caught at line 108 and re-raised as the
`HTTPException` carrying `str(e)`. -/
def process_prompt (adapter : String → Except String String)
    (eng : PromptEngineer) (now : Nat) (request : PromptRequest) :
    Except String PromptResponse × PromptEngineer × List String :=
  if request.bypass_enhancement then
    match adapter request.prompt with
    | Except.ok llm_response =>
      (Except.ok { response := llm_response, enhancement_index := none },
       eng, [request.prompt])
    | Except.error e => (Except.error e, eng, [request.prompt])
  else
    match enhance_prompt adapter eng now request.prompt with
    | none =>
      (Except.error ("KeyError: " ++ detect_prompt_type request.prompt), eng, [])
    | some (final_prompt, eng2, calls) =>
      let enhancement_index : Int := (eng2.enhancement_history.length : Int) - 1
      match adapter final_prompt with
      | Except.ok llm_response =>
        (Except.ok { response := llm_response, enhancement_index := some enhancement_index },
         eng2, calls ++ [final_prompt])
      | Except.error e => (Except.error e, eng2, calls ++ [final_prompt])

/-- A concrete custom rule, used to exercise the overlay path. -/
def overlayRuleEx : EnhancementRule where
  system_prompt := "custom system prompt"
  template := "custom template: {prompt}"

/-- A concrete engineer state with two history records, used to exercise
the feedback path. -/
def engineerEx : PromptEngineer where
  enhancement_rules := builtinRules
  enhancement_history :=
    [{ original_prompt := "debug this function", enhanced_prompt := "Fixed prompt text",
       timestamp := 0, effectiveness_rating := none },
     { original_prompt := "hello", enhanced_prompt := "hi there",
       timestamp := 1, effectiveness_rating := none }]

/-- One parsed piece of a format template: a literal character or the
`{prompt}` replacement field. -/
inductive FormatPiece where
  | lit : Char → FormatPiece
  | field : FormatPiece
deriving Repr, DecidableEq

/-- Scan a replacement field after an opening brace: collect the field
text up to the closing brace.  Yields `none` when the closing brace is
missing or a nested opening brace appears. -/
def scanField : List Char → Option (List Char × List Char)
  | [] => none
  | c :: rest =>
    if c = '\x7d' then some ([], rest)
    else if c = '\x7b' then none
    else (scanField rest).map (fun p => (c :: p.1, p.2))

/-- Parser for the subset of CPython format strings this program can meet
when `.format(prompt=...)` runs at prompt-engineer.py line 135: doubled
braces are escapes, `{prompt}` is the one known replacement field, any
other field name raises `KeyError` (only `prompt` is passed as a keyword
argument), and an unmatched brace raises `ValueError`.  Parsing is
value-independent, as in CPython.  Fields carrying a conversion or format
spec are outside the modelled subset and conservatively treated as
raising.  `fuel` bounds the recursion; each step consumes at least one
character, so `fuel = t.length` suffices. -/
def parseFormat (fuel : Nat) (t : List Char) : Except String (List FormatPiece) :=
  match fuel, t with
  | _, [] => Except.ok []
  | 0, _ => Except.error "ValueError: fuel exhausted"
  | fuel + 1, c :: rest =>
    if c = '\x7b' then
      match rest with
      | [] => Except.error "ValueError: single opening brace in format string"
      | c2 :: rest2 =>
        if c2 = '\x7b' then
          (parseFormat fuel rest2).map (fun pieces => FormatPiece.lit c :: pieces)
        else
          match scanField rest with
          | none => Except.error "ValueError: single opening brace in format string"
          | some (fieldName, rest3) =>
            if fieldName = "prompt".data then
              (parseFormat fuel rest3).map (fun pieces => FormatPiece.field :: pieces)
            else
              Except.error ("KeyError: " ++ String.mk fieldName)
    else if c = '\x7d' then
      match rest with
      | [] => Except.error "ValueError: single closing brace in format string"
      | c2 :: rest2 =>
        if c2 = '\x7d' then
          (parseFormat fuel rest2).map (fun pieces => FormatPiece.lit c :: pieces)
        else Except.error "ValueError: single closing brace in format string"
    else (parseFormat fuel rest).map (fun pieces => FormatPiece.lit c :: pieces)

/-- Substitute the prompt text for each replacement field of a parsed
template. -/
def renderFormat (pieces : List FormatPiece) (value : List Char) : List Char :=
  match pieces with
  | [] => []
  | FormatPiece.lit c :: rest => c :: renderFormat rest value
  | FormatPiece.field :: rest => value ++ renderFormat rest value

/-- Model of Python `template.format(prompt=value)` WITH its error path:
`Except.error e` is the exception `str.format` raises. -/
def pyFormat (template value : String) : Except String String :=
  (parseFormat template.data.length template.data).map
    (fun pieces => String.mk (renderFormat pieces value.data))

/-- A template is format-safe when `str.format(prompt=...)` cannot raise
on it: parsing succeeds.  Since parsing never looks at the substituted
value, safety is independent of the prompt. -/
def formatSafe (template : String) : Bool :=
  match parseFormat template.data.length template.data with
  | Except.ok _ => true
  | Except.error _ => false

/-- Refined model of `PromptEngineer.enhance_prompt` (prompt-engineer.py
lines 129-155) carrying the error path of the `.format` call at line 135,
which sits OUTSIDE the `try` that guards the provider call: a rule-dict
`KeyError` (line 132) or a `str.format` exception (line 135) propagates
to the caller as `Except.error`.  On non-raising executions it behaves as
`enhance_prompt` does. -/
def enhance_prompt_checked (adapter : String → Except String String)
    (eng : PromptEngineer) (now : Nat) (prompt : String) :
    Except String (String × PromptEngineer × List String) :=
  let prompt_type := detect_prompt_type prompt
  match eng.enhancement_rules prompt_type with
  | none => Except.error ("KeyError: " ++ prompt_type)
  | some enhancement_rule =>
    match pyFormat enhancement_rule.template prompt with
    | Except.error e => Except.error e
    | Except.ok meta_prompt =>
      match adapter meta_prompt with
      | Except.ok enhanced_prompt =>
        Except.ok (enhanced_prompt,
          { eng with enhancement_history :=
              eng.enhancement_history ++
                [{ original_prompt := prompt, enhanced_prompt := enhanced_prompt,
                   timestamp := now, effectiveness_rating := none }] },
          [meta_prompt])
      | Except.error _ => Except.ok (prompt, eng, [meta_prompt])

/-- A loadable overlay rule whose template has a stray replacement field:
the JSON object behind it is well-formed, so `load_enhancement_rules`
accepts it, yet `.format(prompt=...)` raises `KeyError` on it. -/
def overlayBadRule : EnhancementRule where
  system_prompt := "x"
  template := "{foo}"

/-! Helper lemmas -/

/-- The detector can only ever return one of the four built-in categories. -/
lemma detect_prompt_type_cases (p : String) :
    detect_prompt_type p = "coding" ∨ detect_prompt_type p = "creative" ∨
    detect_prompt_type p = "analytical" ∨ detect_prompt_type p = "default" := by
  unfold detect_prompt_type
  dsimp only
  split_ifs <;> simp

/-- The built-in dict has an entry at every category the detector returns. -/
lemma builtinRules_detect_isSome (p : String) :
    (builtinRules (detect_prompt_type p)).isSome = true := by
  rcases detect_prompt_type_cases p with h | h | h | h <;> rw [h] <;> rfl

/-- Overwrites of `dict.update` never remove keys: a key present in the base dict is
still present after any sequence of overwrites. -/
lemma foldl_updateRules_isSome (custom_rules : List (String × EnhancementRule))
    (base : String → Option EnhancementRule) (c : String)
    (h : (base c).isSome = true) :
    ((custom_rules.foldl updateRules base) c).isSome = true := by
  induction custom_rules generalizing base with
  | nil => exact h
  | cons kv rest ih =>
    rw [List.foldl_cons]
    apply ih
    by_cases hc : c = kv.1 <;> simp [updateRules, hc, h]

/-- Keys untouched by the overwrites keep their base entry. -/
lemma foldl_updateRules_not_mem (custom_rules : List (String × EnhancementRule))
    (base : String → Option EnhancementRule) (c : String)
    (h : c ∉ custom_rules.map Prod.fst) :
    (custom_rules.foldl updateRules base) c = base c := by
  induction custom_rules generalizing base with
  | nil => rfl
  | cons kv rest ih =>
    simp only [List.map_cons, List.mem_cons, not_or] at h
    rw [List.foldl_cons, ih _ h.2]
    simp [updateRules, h.1]

/-- With duplicate-free keys (as a JSON object yields), an overwritten key
maps to the overlay entry. -/
lemma foldl_updateRules_mem (custom_rules : List (String × EnhancementRule))
    (base : String → Option EnhancementRule) (k : String) (r : EnhancementRule)
    (hnd : (custom_rules.map Prod.fst).Nodup) (hmem : (k, r) ∈ custom_rules) :
    (custom_rules.foldl updateRules base) k = some r := by
  induction custom_rules generalizing base with
  | nil => cases hmem
  | cons kv rest ih =>
    simp only [List.map_cons, List.nodup_cons] at hnd
    rw [List.foldl_cons]
    rcases List.mem_cons.mp hmem with heq | hrest
    · subst heq
      rw [foldl_updateRules_not_mem rest _ _ hnd.1]
      simp [updateRules]
    · exact ih _ hnd.2 hrest

/-- Updates by `setRatingAt` keep the history length. -/
lemma setRatingAt_length (history : List PromptEnhancement) (i : Nat) (rating : Int) :
    (setRatingAt history i rating).length = history.length := by
  induction history generalizing i with
  | nil => rfl
  | cons record rest ih =>
    cases i with
    | zero => rfl
    | succ n => simp [setRatingAt, ih]

/-- At the updated position, `setRatingAt` only rewrites the rating field. -/
lemma setRatingAt_getElem_self (history : List PromptEnhancement) (i : Nat) (rating : Int) :
    (setRatingAt history i rating)[i]? =
      (history[i]?).map (fun record => { record with effectiveness_rating := some rating }) := by
  induction history generalizing i with
  | nil => simp [setRatingAt]
  | cons record rest ih =>
    cases i with
    | zero => simp [setRatingAt]
    | succ n => simpa [setRatingAt] using ih n

/-- Away from the updated position, `setRatingAt` changes nothing. -/
lemma setRatingAt_getElem_ne (history : List PromptEnhancement) (i j : Nat) (rating : Int)
    (h : j ≠ i) :
    (setRatingAt history i rating)[j]? = history[j]? := by
  induction history generalizing i j with
  | nil => simp [setRatingAt]
  | cons record rest ih =>
    cases i with
    | zero =>
      cases j with
      | zero => exact absurd rfl h
      | succ m => simp [setRatingAt]
    | succ n =>
      cases j with
      | zero => simp [setRatingAt]
      | succ m =>
        simpa [setRatingAt] using ih n m (fun hc => h (by rw [hc]))

/-- Behavior of `enhance_prompt` when the provider call raises: the
original prompt comes back and the engineer state is untouched. -/
lemma enhance_prompt_error_eq (eng : PromptEngineer) (now : Nat) (prompt : String)
    (adapter : String → Except String String) (rule : EnhancementRule) (e : String)
    (hrule : eng.enhancement_rules (detect_prompt_type prompt) = some rule)
    (herr : adapter (build_meta_prompt rule prompt) = Except.error e) :
    enhance_prompt adapter eng now prompt =
      some (prompt, eng, [build_meta_prompt rule prompt]) := by
  unfold enhance_prompt
  dsimp only
  rw [hrule]
  dsimp only
  rw [herr]

/-- Behavior of `enhance_prompt` when the provider call succeeds: the
enhanced text comes back and one record is appended. -/
lemma enhance_prompt_ok_eq (eng : PromptEngineer) (now : Nat)
    (prompt enhanced : String) (adapter : String → Except String String)
    (rule : EnhancementRule)
    (hrule : eng.enhancement_rules (detect_prompt_type prompt) = some rule)
    (hok : adapter (build_meta_prompt rule prompt) = Except.ok enhanced) :
    enhance_prompt adapter eng now prompt =
      some (enhanced,
        { eng with enhancement_history :=
            eng.enhancement_history ++
              [{ original_prompt := prompt, enhanced_prompt := enhanced,
                 timestamp := now, effectiveness_rating := none }] },
        [build_meta_prompt rule prompt]) := by
  unfold enhance_prompt
  dsimp only
  rw [hrule]
  dsimp only
  rw [hok]

/-- Safety of a template transfers to every substituted value: parsing
does not look at the value. -/
lemma pyFormat_safe_all (template : String) (h : formatSafe template = true)
    (value : String) : ∃ s, pyFormat template value = Except.ok s := by
  unfold formatSafe at h
  unfold pyFormat
  cases hp : parseFormat template.data.length template.data with
  | ok pieces =>
    exact ⟨String.mk (renderFormat pieces value.data), rfl⟩
  | error e =>
    rw [hp] at h
    simp at h

/-- Every entry of a rule set built by overwrites is either an entry of
the base dict or one of the overwriting pairs. -/
lemma foldl_updateRules_mem_or_base (custom_rules : List (String × EnhancementRule))
    (base : String → Option EnhancementRule) (c : String) :
    (custom_rules.foldl updateRules base) c = base c ∨
    ∃ kv ∈ custom_rules, (custom_rules.foldl updateRules base) c = some kv.2 := by
  induction custom_rules generalizing base with
  | nil => exact Or.inl rfl
  | cons kv rest ih =>
    rw [List.foldl_cons]
    rcases ih (updateRules base kv) with h | ⟨kv2, hmem, h⟩
    · by_cases hc : c = kv.1
      · refine Or.inr ⟨kv, List.mem_cons_self _ _, ?_⟩
        rw [h]
        unfold updateRules
        rw [if_pos hc]
      · refine Or.inl ?_
        rw [h]
        unfold updateRules
        rw [if_neg hc]
    · exact Or.inr ⟨kv2, List.mem_cons_of_mem _ hmem, h⟩

/-- Specialization to the constructed rule set: every entry is a built-in
rule or comes from the overlay. -/
lemma load_enhancement_rules_mem_or_base (custom_rules : List (String × EnhancementRule))
    (c : String) :
    load_enhancement_rules custom_rules c = builtinRules c ∨
    ∃ kv ∈ custom_rules, load_enhancement_rules custom_rules c = some kv.2 :=
  foldl_updateRules_mem_or_base custom_rules builtinRules c

/-- All four built-in templates are format-safe. -/
lemma builtin_templates_safe (c : String) (rule : EnhancementRule)
    (h : builtinRules c = some rule) : formatSafe rule.template = true := by
  unfold builtinRules at h
  split_ifs at h
  · cases Option.some.inj h; decide
  · cases Option.some.inj h; decide
  · cases Option.some.inj h; decide
  · cases Option.some.inj h; decide

/-! Claim theorems -/

/-- Claim C1, counterexample: the claim predicts that a failing adapter
call still appends exactly one record with
`enhanced_prompt = original_prompt = p`.  At the concrete input
`p = "hello"` with an always-failing adapter, `enhance_prompt` does return
`"hello"` unchanged, but the history stays empty — no record (in
particular not one) is appended, refuting the claim. -/
theorem enhance_prompt_failure_append_refuted :
    ((enhance_prompt (fun _ => Except.error "network error") (mkPromptEngineer []) 0
          "hello").map (fun out => (out.1, out.2.1.enhancement_history))) =
      some ("hello", []) ∧
    ((enhance_prompt (fun _ => Except.error "network error") (mkPromptEngineer []) 0
          "hello").map (fun out => out.2.1.enhancement_history.length)) ≠ some 1 :=
  ⟨rfl, by decide⟩

/-- Claim C1 (amended): if the provider call inside `enhance` fails,
`enhance(p)` returns `p` unchanged and NO record is appended — the
engineer state is untouched; exactly one record is appended per
SUCCESSFUL call only. -/
theorem enhance_prompt_failure_no_append (eng : PromptEngineer) (now : Nat)
    (prompt : String) (adapter : String → Except String String)
    (rule : EnhancementRule)
    (hrule : eng.enhancement_rules (detect_prompt_type prompt) = some rule) :
    (∀ e, adapter (build_meta_prompt rule prompt) = Except.error e →
      enhance_prompt adapter eng now prompt =
        some (prompt, eng, [build_meta_prompt rule prompt])) ∧
    (∀ enhanced, adapter (build_meta_prompt rule prompt) = Except.ok enhanced →
      (enhance_prompt adapter eng now prompt).map
          (fun out => out.2.1.enhancement_history.length) =
        some (eng.enhancement_history.length + 1)) := by
  constructor
  · intro e herr
    exact enhance_prompt_error_eq eng now prompt adapter rule e hrule herr
  · intro enhanced hok
    rw [enhance_prompt_ok_eq eng now prompt enhanced adapter rule hrule hok]
    simp

/-- Witness for the amended C1 at a concrete input: with an always-failing
adapter, enhancing `"hello"` from a fresh engineer returns `"hello"` and
leaves the (empty) history empty. -/
theorem enhance_prompt_failure_no_append_witness :
    enhance_prompt (fun _ => Except.error "network error") (mkPromptEngineer []) 0 "hello" =
      some ("hello", mkPromptEngineer [], [build_meta_prompt defaultRule "hello"]) :=
  (enhance_prompt_failure_no_append (mkPromptEngineer []) 0 "hello"
      (fun _ => Except.error "network error") defaultRule rfl).1 "network error" rfl

/-- Claim C2, counterexample: the loadable overlay
`[("default", overlayBadRule)]` (well-formed JSON, so the `except` at
prompt-engineer.py line 113 does not fire) leaves the rule-set lookup at
the detected category succeeding, yet `enhance("hello")` raises
`KeyError: foo` from the `.format` call at line 135 — which sits outside
the `try` of lines 137-155 — so "for any adapter behavior `enhance`
returns a string and never raises to its caller" is false of the program
as stated. -/
theorem enhance_prompt_checked_raises :
    load_enhancement_rules [("default", overlayBadRule)] (detect_prompt_type "hello") =
      some overlayBadRule ∧
    enhance_prompt_checked (fun _ => Except.ok "enhanced")
        (mkPromptEngineer [("default", overlayBadRule)]) 0 "hello" =
      Except.error "KeyError: foo" :=
  ⟨rfl, rfl⟩

/-- Claim C2 (amended): `enhance` is total provided every overlay template
is format-safe (it substitutes only the `{prompt}` placeholder — the
EnhancementRule invariant of the spec data model, which the built-in
templates satisfy): then for every history, every prompt and any adapter
behavior, the rule-set lookup at the detected category succeeds — the
detector output is always a key of the rule set — and `enhance` returns a
result instead of raising. -/
theorem enhance_prompt_checked_total (custom_rules : List (String × EnhancementRule))
    (history : List PromptEnhancement) (adapter : String → Except String String)
    (now : Nat) (prompt : String)
    (hsafe : ∀ kv ∈ custom_rules, formatSafe kv.2.template = true) :
    (load_enhancement_rules custom_rules (detect_prompt_type prompt)).isSome = true ∧
    ∃ result,
      enhance_prompt_checked adapter
        { enhancement_rules := load_enhancement_rules custom_rules,
          enhancement_history := history } now prompt = Except.ok result := by
  have hs : (load_enhancement_rules custom_rules (detect_prompt_type prompt)).isSome = true :=
    foldl_updateRules_isSome custom_rules builtinRules _ (builtinRules_detect_isSome prompt)
  refine ⟨hs, ?_⟩
  obtain ⟨rule, hrule⟩ := Option.isSome_iff_exists.mp hs
  have hsafeRule : formatSafe rule.template = true := by
    rcases load_enhancement_rules_mem_or_base custom_rules
        (detect_prompt_type prompt) with hbase | ⟨kv, hmem, hover⟩
    · exact builtin_templates_safe (detect_prompt_type prompt) rule (hbase.symm.trans hrule)
    · have hkv : rule = kv.2 := Option.some.inj ((hrule.symm.trans hover))
      rw [hkv]
      exact hsafe kv hmem
  obtain ⟨meta_prompt, hmeta⟩ := pyFormat_safe_all rule.template hsafeRule prompt
  unfold enhance_prompt_checked
  dsimp only
  rw [hrule]
  dsimp only
  rw [hmeta]
  dsimp only
  cases adapter meta_prompt
  · exact ⟨_, rfl⟩
  · exact ⟨_, rfl⟩

/-- Witness for the amended C2: overlaying a format-safe custom coding
rule, the lookup succeeds and enhancing `"hello"` returns a result. -/
theorem enhance_prompt_checked_total_witness :
    (load_enhancement_rules [("coding", overlayRuleEx)]
        (detect_prompt_type "hello")).isSome = true ∧
    ∃ result,
      enhance_prompt_checked (fun _ => Except.ok "enhanced")
        { enhancement_rules := load_enhancement_rules [("coding", overlayRuleEx)],
          enhancement_history := [] } 0 "hello" = Except.ok result :=
  enhance_prompt_checked_total [("coding", overlayRuleEx)] []
    (fun _ => Except.ok "enhanced") 0 "hello" (by decide)

/-- Claim C3: `record_effectiveness(index, rating)` — for an in-range
index it overwrites that record rating (any integer rating accepted) and
reports success; for an out-of-range index it reports the failure and
performs no mutation. -/
theorem record_effectiveness_spec (eng : PromptEngineer) (index rating : Int) :
    (0 ≤ index → index < (eng.enhancement_history.length : Int) →
      (record_effectiveness eng index rating).2 = true ∧
      (record_effectiveness eng index rating).1.enhancement_history[index.toNat]? =
        (eng.enhancement_history[index.toNat]?).map
          (fun record => { record with effectiveness_rating := some rating })) ∧
    (¬ (0 ≤ index ∧ index < (eng.enhancement_history.length : Int)) →
      record_effectiveness eng index rating = (eng, false)) := by
  constructor
  · intro h1 h2
    unfold record_effectiveness
    rw [if_pos ⟨h1, h2⟩]
    exact ⟨rfl, setRatingAt_getElem_self _ _ _⟩
  · intro h
    unfold record_effectiveness
    rw [if_neg h]

/-- Witness for C3: rating record 0 of the two-record example state with 5
succeeds and stores the rating; index 99 is rejected with no mutation. -/
theorem record_effectiveness_spec_witness :
    (record_effectiveness engineerEx 0 5).2 = true ∧
    (record_effectiveness engineerEx 0 5).1.enhancement_history[(0 : Int).toNat]? =
      some { original_prompt := "debug this function", enhanced_prompt := "Fixed prompt text",
             timestamp := 0, effectiveness_rating := some 5 } ∧
    record_effectiveness engineerEx 99 5 = (engineerEx, false) := by
  obtain ⟨h1, h2⟩ := (record_effectiveness_spec engineerEx 0 5).1 (by decide) (by decide)
  refine ⟨h1, ?_, (record_effectiveness_spec engineerEx 99 5).2 (by decide)⟩
  rw [h2]
  rfl

/-- Claim C4: category detection lower-cases the prompt and tests the
fixed keyword lists in priority order coding, creative, analytical, with
`"default"` when none match; in particular a prompt containing both a
coding and a creative keyword is detected as `"coding"`. -/
theorem detect_prompt_type_priority (prompt : String) :
    ((∃ term ∈ codingTerms, strIncludes term (strLower prompt) = true) →
      detect_prompt_type prompt = "coding") ∧
    ((∀ term ∈ codingTerms, strIncludes term (strLower prompt) = false) →
      (∃ term ∈ creativeTerms, strIncludes term (strLower prompt) = true) →
      detect_prompt_type prompt = "creative") ∧
    ((∀ term ∈ codingTerms, strIncludes term (strLower prompt) = false) →
      (∀ term ∈ creativeTerms, strIncludes term (strLower prompt) = false) →
      (∃ term ∈ analyticalTerms, strIncludes term (strLower prompt) = true) →
      detect_prompt_type prompt = "analytical") ∧
    ((∀ term ∈ codingTerms, strIncludes term (strLower prompt) = false) →
      (∀ term ∈ creativeTerms, strIncludes term (strLower prompt) = false) →
      (∀ term ∈ analyticalTerms, strIncludes term (strLower prompt) = false) →
      detect_prompt_type prompt = "default") ∧
    ((∃ term ∈ codingTerms, strIncludes term (strLower prompt) = true) →
      (∃ term ∈ creativeTerms, strIncludes term (strLower prompt) = true) →
      detect_prompt_type prompt = "coding") := by
  have notAny : ∀ (l : List String),
      (∀ term ∈ l, strIncludes term (strLower prompt) = false) →
      ¬ ((l.any fun term => strIncludes term (strLower prompt)) = true) := by
    intro l h hc
    rcases List.any_eq_true.mp hc with ⟨x, hx, hpx⟩
    rw [h x hx] at hpx
    cases hpx
  refine ⟨fun hc => ?_, fun hnc hcre => ?_, fun hnc hncre han => ?_,
    fun hnc hncre hnan => ?_, fun hc _ => ?_⟩ <;>
    unfold detect_prompt_type <;> dsimp only
  · rw [if_pos (List.any_eq_true.mpr hc)]
  · rw [if_neg (notAny _ hnc), if_pos (List.any_eq_true.mpr hcre)]
  · rw [if_neg (notAny _ hnc), if_neg (notAny _ hncre),
      if_pos (List.any_eq_true.mpr han)]
  · rw [if_neg (notAny _ hnc), if_neg (notAny _ hncre), if_neg (notAny _ hnan)]
  · rw [if_pos (List.any_eq_true.mpr hc)]

/-- Witness for C4: `"debug a story"` contains the coding keyword
`"debug"` and the creative keyword `"story"`, and is detected as coding. -/
theorem detect_prompt_type_priority_witness :
    detect_prompt_type "debug a story" = "coding" :=
  (detect_prompt_type_priority "debug a story").2.2.2.2
    ⟨"debug", by decide, by decide⟩ ⟨"story", by decide, by decide⟩

/-- Claim C5: on adapter success with text `t`, `enhance(p)` returns `t`
and appends exactly one record with `original_prompt = p`,
`enhanced_prompt = t` and rating unset, so the returned value and the
appended record enhanced text coincide. -/
theorem enhance_prompt_success (eng : PromptEngineer) (now : Nat)
    (prompt enhanced : String) (adapter : String → Except String String)
    (rule : EnhancementRule)
    (hrule : eng.enhancement_rules (detect_prompt_type prompt) = some rule)
    (hok : adapter (build_meta_prompt rule prompt) = Except.ok enhanced) :
    enhance_prompt adapter eng now prompt =
      some (enhanced,
        { eng with enhancement_history :=
            eng.enhancement_history ++
              [{ original_prompt := prompt, enhanced_prompt := enhanced,
                 timestamp := now, effectiveness_rating := none }] },
        [build_meta_prompt rule prompt]) :=
  enhance_prompt_ok_eq eng now prompt enhanced adapter rule hrule hok

/-- Witness for C5: the end-to-end scenario of the spec — enhancing
`"debug this function"` with an adapter answering `"Fixed prompt text"`
returns that text and appends the one matching, unrated record. -/
theorem enhance_prompt_success_witness :
    enhance_prompt (fun _ => Except.ok "Fixed prompt text") (mkPromptEngineer []) 0
        "debug this function" =
      some ("Fixed prompt text",
        { mkPromptEngineer [] with enhancement_history :=
            (mkPromptEngineer []).enhancement_history ++
              [{ original_prompt := "debug this function",
                 enhanced_prompt := "Fixed prompt text",
                 timestamp := 0, effectiveness_rating := none }] },
        [build_meta_prompt codingRule "debug this function"]) :=
  enhance_prompt_success (mkPromptEngineer []) 0 "debug this function" "Fixed prompt text"
    (fun _ => Except.ok "Fixed prompt text") codingRule rfl rfl

/-- Claim C6: with `bypass_enhancement` true the enhancement pipeline is
skipped — the engineer state (hence the history) is unchanged, the
provider is called exactly once, on the original prompt, and a successful
response comes back with `enhancement_index` unset. -/
theorem process_prompt_bypass (adapter : String → Except String String)
    (eng : PromptEngineer) (now : Nat) (request : PromptRequest)
    (hbyp : request.bypass_enhancement = true) :
    (process_prompt adapter eng now request).2.1 = eng ∧
    (process_prompt adapter eng now request).2.2 = [request.prompt] ∧
    (∀ llm_response, adapter request.prompt = Except.ok llm_response →
      (process_prompt adapter eng now request).1 =
        Except.ok { response := llm_response, enhancement_index := none }) := by
  unfold process_prompt
  rw [if_pos hbyp]
  refine ⟨?_, ?_, ?_⟩
  · cases adapter request.prompt <;> rfl
  · cases adapter request.prompt <;> rfl
  · intro llm_response hr
    rw [hr]

/-- Witness for C6: `process("hello", bypass_enhancement=true)` against
the two-record example state answers with `enhancement_index` unset, calls
the provider once on `"hello"`, and appends nothing. -/
theorem process_prompt_bypass_witness :
    (process_prompt (fun _ => Except.ok "answer") engineerEx 0
        { prompt := "hello", bypass_enhancement := true }).2.1 = engineerEx ∧
    (process_prompt (fun _ => Except.ok "answer") engineerEx 0
        { prompt := "hello", bypass_enhancement := true }).2.2 = ["hello"] ∧
    (process_prompt (fun _ => Except.ok "answer") engineerEx 0
        { prompt := "hello", bypass_enhancement := true }).1 =
      Except.ok { response := "answer", enhancement_index := none } := by
  have h := process_prompt_bypass (fun _ => Except.ok "answer") engineerEx 0
      { prompt := "hello", bypass_enhancement := true } rfl
  exact ⟨h.1, h.2.1, h.2.2 "answer" rfl⟩

/-- Claim C7, frame property of feedback: an in-range
`record_effectiveness(i, r)` keeps the history length and the rule set,
rewrites only the rating field of record `i` (its original prompt,
enhanced prompt and timestamp are unchanged), and leaves every other
record untouched. -/
theorem record_effectiveness_frame (eng : PromptEngineer) (i : Nat) (rating : Int)
    (h : i < eng.enhancement_history.length) :
    (record_effectiveness eng (i : Int) rating).1.enhancement_history.length =
      eng.enhancement_history.length ∧
    (record_effectiveness eng (i : Int) rating).1.enhancement_history[i]? =
      (eng.enhancement_history[i]?).map
        (fun record => { record with effectiveness_rating := some rating }) ∧
    (∀ j, j ≠ i →
      (record_effectiveness eng (i : Int) rating).1.enhancement_history[j]? =
        eng.enhancement_history[j]?) ∧
    (record_effectiveness eng (i : Int) rating).1.enhancement_rules =
      eng.enhancement_rules ∧
    ((record_effectiveness eng (i : Int) rating).1.enhancement_history[i]?).map
        PromptEnhancement.original_prompt =
      (eng.enhancement_history[i]?).map PromptEnhancement.original_prompt ∧
    ((record_effectiveness eng (i : Int) rating).1.enhancement_history[i]?).map
        PromptEnhancement.enhanced_prompt =
      (eng.enhancement_history[i]?).map PromptEnhancement.enhanced_prompt ∧
    ((record_effectiveness eng (i : Int) rating).1.enhancement_history[i]?).map
        PromptEnhancement.timestamp =
      (eng.enhancement_history[i]?).map PromptEnhancement.timestamp := by
  have hcond : 0 ≤ (i : Int) ∧ (i : Int) < (eng.enhancement_history.length : Int) :=
    ⟨Int.ofNat_nonneg i, by exact_mod_cast h⟩
  unfold record_effectiveness
  rw [if_pos hcond]
  dsimp only
  refine ⟨setRatingAt_length _ _ _, setRatingAt_getElem_self _ _ _,
    fun j hj => setRatingAt_getElem_ne _ _ _ _ hj, rfl, ?_, ?_, ?_⟩ <;>
    rw [show ((i : Int)).toNat = i from rfl, setRatingAt_getElem_self] <;>
    cases eng.enhancement_history[i]? <;> rfl

/-- Witness for C7: rating record 0 of the two-record example state keeps
the length at 2 and record 1 untouched. -/
theorem record_effectiveness_frame_witness :
    (record_effectiveness engineerEx ((0 : Nat) : Int) 7).1.enhancement_history.length = 2 ∧
    (record_effectiveness engineerEx ((0 : Nat) : Int) 7).1.enhancement_history[(1 : Nat)]? =
      engineerEx.enhancement_history[(1 : Nat)]? := by
  have h := record_effectiveness_frame engineerEx 0 7 (by decide)
  exact ⟨h.1.trans rfl, h.2.2.1 1 (by decide)⟩

/-- Claim C8, overlay precedence: for a duplicate-free custom overlay
(as a JSON object yields), a `"coding"` entry of the overlay is what
`lookup("coding")` returns afterwards, and every category not named in
the overlay still maps to its built-in rule. -/
theorem load_enhancement_rules_overlay (custom_rules : List (String × EnhancementRule))
    (hnd : (custom_rules.map Prod.fst).Nodup) :
    (∀ rule, ("coding", rule) ∈ custom_rules →
      load_enhancement_rules custom_rules "coding" = some rule) ∧
    (∀ category, category ∉ custom_rules.map Prod.fst →
      load_enhancement_rules custom_rules category = builtinRules category) :=
  ⟨fun rule hmem => foldl_updateRules_mem custom_rules builtinRules "coding" rule hnd hmem,
   fun category hc => foldl_updateRules_not_mem custom_rules builtinRules category hc⟩

/-- Witness for C8: after overlaying a custom `"coding"` rule,
`lookup("coding")` is the custom rule while `lookup("creative")` is still
the built-in one. -/
theorem load_enhancement_rules_overlay_witness :
    load_enhancement_rules [("coding", overlayRuleEx)] "coding" = some overlayRuleEx ∧
    load_enhancement_rules [("coding", overlayRuleEx)] "creative" = some creativeRule := by
  have h := load_enhancement_rules_overlay [("coding", overlayRuleEx)] (by decide)
  exact ⟨h.1 overlayRuleEx (by decide), (h.2 "creative" (by decide)).trans rfl⟩

/-- Claim C9: a failure of the final answer-generation call is never
recovered — whatever the enhancement step did (bypassed, or ran and
returned some final prompt), `process` ends in the user-visible error
carrying the cause description instead of a response. -/
theorem process_prompt_final_failure (adapter : String → Except String String)
    (eng : PromptEngineer) (now : Nat) (request : PromptRequest) (e : String) :
    (request.bypass_enhancement = true → adapter request.prompt = Except.error e →
      process_prompt adapter eng now request = (Except.error e, eng, [request.prompt])) ∧
    (∀ final_prompt eng2 calls,
      request.bypass_enhancement = false →
      enhance_prompt adapter eng now request.prompt = some (final_prompt, eng2, calls) →
      adapter final_prompt = Except.error e →
      process_prompt adapter eng now request =
        (Except.error e, eng2, calls ++ [final_prompt])) := by
  constructor
  · intro hb herr
    unfold process_prompt
    rw [if_pos hb, herr]
  · intro final_prompt eng2 calls hb henh herr
    unfold process_prompt
    rw [if_neg (by simp [hb]), henh]
    dsimp only
    rw [herr]

/-- Witness for C9: a bypassed request whose final call fails with
`"provider down"` propagates exactly that error. -/
theorem process_prompt_final_failure_witness :
    process_prompt (fun _ => Except.error "provider down") engineerEx 0
        { prompt := "hello", bypass_enhancement := true } =
      (Except.error "provider down", engineerEx, ["hello"]) :=
  (process_prompt_final_failure (fun _ => Except.error "provider down") engineerEx 0
      { prompt := "hello", bypass_enhancement := true } "provider down").1 rfl rfl

/-- Claim C10 (implicit): in a non-bypassed `process` whose enhancement
call fails but whose final call succeeds, no record is appended (the
engineer comes back unchanged) yet the responded `enhancement_index` is
still `len(history) - 1` — an index of a record of an earlier request, or
`-1` when the history is empty. -/
theorem process_prompt_stale_index (adapter : String → Except String String)
    (eng : PromptEngineer) (now : Nat) (request : PromptRequest)
    (rule : EnhancementRule) (e llm_response : String)
    (hbyp : request.bypass_enhancement = false)
    (hrule : eng.enhancement_rules (detect_prompt_type request.prompt) = some rule)
    (herr : adapter (build_meta_prompt rule request.prompt) = Except.error e)
    (hok : adapter request.prompt = Except.ok llm_response) :
    process_prompt adapter eng now request =
      (Except.ok { response := llm_response,
                   enhancement_index := some ((eng.enhancement_history.length : Int) - 1) },
       eng, [build_meta_prompt rule request.prompt, request.prompt]) ∧
    (eng.enhancement_history = [] →
      (eng.enhancement_history.length : Int) - 1 = -1) := by
  have henh := enhance_prompt_error_eq eng now request.prompt adapter rule e hrule herr
  constructor
  · unfold process_prompt
    rw [if_neg (by simp [hbyp]), henh]
    dsimp only
    rw [hok]
    rfl
  · intro hnil
    rw [hnil]
    rfl

/-- Witness for C10: from an empty history, a request whose enhancement
call fails but whose final call answers `"final answer"` responds with the
out-of-range `enhancement_index = -1` and appends nothing. -/
theorem process_prompt_stale_index_witness :
    process_prompt
        (fun s => if s = "hello" then Except.ok "final answer" else Except.error "provider down")
        (mkPromptEngineer []) 0 { prompt := "hello", bypass_enhancement := false } =
      (Except.ok { response := "final answer", enhancement_index := some (-1) },
       mkPromptEngineer [], [build_meta_prompt defaultRule "hello", "hello"]) := by
  have h := process_prompt_stale_index
      (fun s => if s = "hello" then Except.ok "final answer" else Except.error "provider down")
      (mkPromptEngineer []) 0 { prompt := "hello", bypass_enhancement := false }
      defaultRule "provider down" "final answer" rfl rfl
      (by
        dsimp only
        rw [if_neg (by decide : ¬ (build_meta_prompt defaultRule "hello" = "hello"))])
      (by
        dsimp only
        rw [if_pos rfl])
  exact h.1

end PromptMiddleware
